import Mathlib

/-!
Shallow embedding of the SerialMenu library (src/SerialMenu.hpp, src/SerialMenu.cpp).

Modelling conventions:
- C `char` / byte values are `Nat` in the range 0..255; bitwise `|`, `&` are
  `Nat.lor` / `Nat.land` (`|||` / `&&&`).  `uint16_t` arithmetic is `Nat`
  with `% 65536` where overflow or wraparound is possible; `uint8_t` with
  `% 256`.
- `Serial` output is modelled as the list of bytes written, in order;
  `Serial.println s` writes `s ++ [10]`.  `digitalWrite(LED_BUILTIN, v)` is
  recorded in a list of booleans (`true` = HIGH), one element per call.
- The pending serial input is an explicit `List Nat`; `Serial.available()`
  is non-emptiness and `Serial.read()` consumes the head.  A blocking read
  from an exhausted input stream is modelled as `Option.none` (the C code
  busy-polls forever there).
- Action callbacks (`void (*)()`) are identified by a `Nat` id; `run`
  records the ids of the callbacks it invokes, in order.
- The configuration modelled is the header's full-featured default:
  PROGMEM support enabled, `LED_BUILTIN` defined so the idle-heartbeat
  block (`SERIALMENU_SHOW_HEARTBEAT_ON_IDLE`) is compiled in, and
  `SERIALMENU_MINIMAL_FOOTPRINT` off (so `show` prints the "\nMenu:"
  header).
-/

/-- Packing of the selector character performed by the `SerialMenuEntry`
constructor (SerialMenu.hpp line 195): `isprogMem ? (k|0x20) : (k&(~0x20))`.
Bit 0x20 of the stored key doubles as the PROGMEM flag. -/
def mkKey (isprogMem : Bool) (k : Nat) : Nat :=
  if isprogMem then k ||| 32 else k &&& 223

/-- One menu entry (class `SerialMenuEntry`): callback (modelled by an id),
message text (list of byte values, no terminating NUL), and the packed
key byte. -/
structure SerialMenuEntry where
  actionCallback : Nat
  message : List Nat
  key : Nat
deriving DecidableEq

/-- The `SerialMenuEntry(m, isprogMem, k, c)` constructor
(SerialMenu.hpp lines 192-200). -/
def mkEntry (m : List Nat) (isprogMem : Bool) (k : Nat) (c : Nat) : SerialMenuEntry :=
  { actionCallback := c, message := m, key := mkKey isprogMem k }

/-- `SerialMenuEntry::isProgMem` (line 208-211): `key & 0x20` as a truth value. -/
def SerialMenuEntry.isProgMem (e : SerialMenuEntry) : Bool :=
  decide (e.key &&& 32 ≠ 0)

/-- `SerialMenuEntry::isChosen(k)` (line 216-219): `(k|0x20) == (key|0x20)`. -/
def SerialMenuEntry.isChosen (e : SerialMenuEntry) (k : Nat) : Bool :=
  (k ||| 32) == (e.key ||| 32)

/-- Byte values of the literal `": Invalid menu choice."`
(printed by `run`, line 507). -/
def invalidMsg : List Nat :=
  [58, 32, 73, 110, 118, 97, 108, 105, 100, 32, 109, 101, 110, 117, 32,
   99, 104, 111, 105, 99, 101, 46]

/-- Byte values written by `Serial.println("\nMenu:")` (`show`, line 330). -/
def menuHeader : List Nat := [10, 77, 101, 110, 117, 58, 10]

/-- The PROGMEM chunk-copy loop of `show` (lines 343-350), after the first
chunk of the label has already been printed.  The C loop is
`while (len >= PROGMEM_BUF_SIZE) { progMemPt += 7; len = strlcpy_P(buffer, progMemPt, 8); Serial.print(buffer); }`
where `len` is a `uint8_t` holding `strlen(progMemPt) % 256` and each
`Serial.print(buffer)` emits the next `min(remaining, 7)` characters.
`fuel` bounds the iteration count; every iteration requires the remaining
length to be at least 8 and drops 7 characters, so any `fuel ≥ s.length`
computes the loop exactly (the invariant `s.length ≤ fuel` is preserved). -/
def chunkWhileFuel : Nat → List Nat → List Nat
  | 0, _ => []
  | fuel + 1, s =>
    if 8 ≤ s.length % 256 then
      (s.drop 7).take 7 ++ chunkWhileFuel fuel (s.drop 7)
    else []

/-- The chunk-copy loop run to completion on label remainder `s`. -/
def chunkWhile (s : List Nat) : List Nat := chunkWhileFuel s.length s

/-- Output of `show` for one menu entry (lines 335-358): PROGMEM labels go
through the chunked copy (first chunk `take 7`, then the while loop, then
`Serial.println("")`), SRAM labels are printed directly with `println`. -/
def showEntry (e : SerialMenuEntry) : List Nat :=
  if e.isProgMem then
    (e.message.take 7 ++ chunkWhile e.message) ++ [10]
  else
    e.message ++ [10]

/-- `SerialMenu::show` (lines 327-360): header line, then every entry's
label in order.  (`show` is a Lean keyword, hence the name `showMenu`.) -/
def showMenu (menu : List SerialMenuEntry) : List Nat :=
  menuHeader ++ (menu.map showEntry).flatten

/-- `const uint16_t callsPerSecond = 1000 / loopDelayMs` (run, line 448).
The quotient is at most 1000, so the `uint16_t` truncation is a no-op. -/
def callsPerSecond (loopDelayMs : Nat) : Nat := 1000 / loopDelayMs

/-- `const uint16_t loopsPerTick = 10 * callsPerSecond` (run, line 449),
with the `uint16_t` wraparound made explicit. -/
def loopsPerTick (loopDelayMs : Nat) : Nat :=
  (10 * callsPerSecond loopDelayMs) % 65536

/-- `const uint16_t loopsPerBlink = callsPerSecond` (run, line 450). -/
def loopsPerBlink (loopDelayMs : Nat) : Nat := callsPerSecond loopDelayMs

/-- Everything one call to `run` does, besides returning a `bool`:
the new value of the static `waiting` counter, the bytes written to the
serial console, the values passed to `digitalWrite` (in order), the ids of
the invoked callbacks (in order), and the not-yet-consumed input. -/
structure RunResult where
  waiting : Nat
  output : List Nat
  leds : List Bool
  actions : List Nat
  ret : Bool
  rest : List Nat
deriving DecidableEq

/-- The entry-scan loop of `run` (lines 495-503): find the first entry
whose `isChosen` accepts the input character; return its callback id. -/
def scanMenu (menu : List SerialMenuEntry) (c : Nat) : Option Nat :=
  match menu with
  | [] => none
  | e :: tl => if e.isChosen c then some e.actionCallback else scanMenu tl c

/-- `SerialMenu::run(loopDelayMs)` (lines 440-511) with the heartbeat block
compiled in.  `waiting` is the static `uint16_t SerialMenu::waiting`,
`menu` the loaded entry array, `input` the pending serial bytes. -/
def run (loopDelayMs waiting : Nat) (menu : List SerialMenuEntry)
    (input : List Nat) : RunResult :=
  match input with
  | [] =>
    -- no input available: heartbeat bookkeeping only, return false
    let w := (waiting + 1) % 65536
    let ledOut :=
      if loopsPerTick loopDelayMs ≤ w ∧ w % loopsPerBlink loopDelayMs = 0 then
        [(w / loopsPerBlink loopDelayMs) % 2 == 1]
      else []
    let dotOut := if w % loopsPerTick loopDelayMs = 0 then [46] else []
    { waiting := w, output := dotOut, leds := ledOut, actions := [],
      ret := false, rest := [] }
  | c :: rest =>
    -- input available: terminate a printed tick line if any, then dispatch
    let hbOut := if loopsPerTick loopDelayMs ≤ waiting then [10] else []
    let w := if loopsPerTick loopDelayMs ≤ waiting then 0 else waiting
    if c = 10 then
      { waiting := w, output := hbOut, leds := [], actions := [],
        ret := false, rest := rest }
    else
      match scanMenu menu c with
      | some a =>
        { waiting := w, output := hbOut, leds := [], actions := [a],
          ret := true, rest := rest }
      | none =>
        { waiting := w, output := hbOut ++ c :: (invalidMsg ++ [10]),
          leds := [], actions := [], ret := true, rest := rest }

/-- `n` consecutive calls to `run loopDelayMs` with no input available,
starting from `waiting = w`; returns the final counter and the
concatenated console output and LED writes. -/
def runIdleN (loopDelayMs : Nat) : Nat → Nat → Nat × List Nat × List Bool
  | 0, w => (w, [], [])
  | n + 1, w =>
    let r := run loopDelayMs w [] []
    let p := runIdleN loopDelayMs n r.waiting
    (p.1, r.output ++ p.2.1, r.leds ++ p.2.2)

/-- The digit/point accumulation loop of `SerialMenu::getNumber`
(lines 401-416), generic in the numeric template type `T`.  The head of
the list is the character currently in `c`; the loop body runs
`decimals *= 10;` then either accumulates a digit into `value` or, when
the updated `decimals` is zero and the character is `'.'`, sets
`decimals = 1`; it then blocks to read the next character.  Result: the
final `value`, `decimals`, and the unconsumed input.  `none` models the
code busy-polling forever on an exhausted stream. -/
def numLoop (T : Type) [Ring T] [DecidableEq T] :
    List Nat → T → T → Option (T × T × List Nat)
  | [], _, _ => none
  | c :: rest, value, decimals =>
    if (48 ≤ c ∧ c ≤ 57) ∨ c = 46 then
      let d1 := decimals * 10
      if 48 ≤ c ∧ c ≤ 57 then
        numLoop T rest (value * 10 + ((c - 48 : Nat) : T)) d1
      else
        numLoop T rest value (if d1 = 0 ∧ c = 46 then 1 else d1)
    else
      some (value, decimals, rest)

/-- `SerialMenu::getNumber<T>` (lines 372-433) on a pending input stream,
with the prompt omitted (a prompt only adds console output, which this
claim-relevant model does not track for `getNumber`).  `dv` is the
division of the template type `T` (`value /= decimals`), passed explicitly
because C++ semantics of `/` differ per type (truncating for integers,
exact for fixed-point/rational values).  Returns the parsed value and the
unconsumed input, or `none` if the code would block forever. -/
def getNumberWith (T : Type) [Ring T] [DecidableEq T] (dv : T → T → T)
    (input : List Nat) : Option (T × List Nat) :=
  match input with
  | [] => none
  | c0 :: r0 =>
    -- skip the first invalid carriage return (lines 385-392)
    let s1 : Option (Nat × List Nat) :=
      if c0 = 10 then
        match r0 with
        | [] => none
        | c1 :: r1 => some (c1, r1)
      else some (c0, r0)
    match s1 with
    | none => none
    | some (c, r) =>
      -- leading '-' (lines 394-399)
      let s2 : Option (Bool × Nat × List Nat) :=
        if c = 45 then
          match r with
          | [] => none
          | c2 :: r2 => some (true, c2, r2)
        else some (false, c, r)
      match s2 with
      | none => none
      | some (isNegative, c1, r1) =>
        match numLoop T (c1 :: r1) 0 0 with
        | none => none
        | some (v, decimals, rest) =>
          let v1 := if isNegative then -v else v
          let v2 := if decimals ≠ 0 then dv v1 decimals else v1
          some (v2, rest)

/-- `getNumber<T>` instantiated at a C integer type: division is C's
truncating (toward-zero) integer division, `Int.tdiv`. -/
def getNumberInt (input : List Nat) : Option (Int × List Nat) :=
  getNumberWith Int Int.tdiv input

/-- `getNumber<T>` instantiated at an exact fractional numeric type
(the spec's "type supporting fractional results"): division is exact. -/
def getNumberRat (input : List Nat) : Option (Rat × List Nat) :=
  getNumberWith Rat (fun a b => a / b) input

/-- ASCII letter (either case); used to state the spec's
"same letter in any case pairing". -/
abbrev isAsciiLetter (c : Nat) : Prop :=
  (65 ≤ c ∧ c ≤ 90) ∨ (97 ≤ c ∧ c ≤ 122)

/-- Selector `s` and input `i` are the same letter in some case pairing:
both are ASCII letters and they agree once bit 0x20 is forced. -/
abbrev sameLetterPair (s i : Nat) : Prop :=
  isAsciiLetter s ∧ isAsciiLetter i ∧ s ||| 32 = i ||| 32

/-! ### Helper lemmas -/

set_option maxRecDepth 4000 in
/-- Clearing bit 0x20 and then forcing it is the same as forcing it,
for byte values. -/
theorem land223_lor32 : ∀ s, s < 256 → (s &&& 223) ||| 32 = s ||| 32 := by decide

/-- Forcing bit 0x20 on the packed key recovers the case-fold of the raw
selector, whichever constructor branch packed it. -/
theorem mkKey_lor32 (pm : Bool) (s : Nat) (hs : s < 256) :
    mkKey pm s ||| 32 = s ||| 32 := by
  cases pm
  · exact land223_lor32 s hs
  · simp [mkKey, Nat.lor_assoc]

/-- Bit 0x20 is set in `k ||| 32` for every `k`. -/
theorem lor32_land32 (k : Nat) : (k ||| 32) &&& 32 = 32 := by
  apply Nat.eq_of_testBit_eq
  intro n
  simp only [Nat.testBit_land, Nat.testBit_lor]
  cases h : Nat.testBit 32 n <;> simp [h]

/-- The scan loop returns the callback of the entry at the first matching
index. -/
theorem scanMenu_eq_first (b : Nat) :
    ∀ (menu : List SerialMenuEntry) (i : Nat) (hi : i < menu.length),
      (menu.get ⟨i, hi⟩).isChosen b = true →
      (∀ j (hj : j < i), (menu.get ⟨j, Nat.lt_trans hj hi⟩).isChosen b = false) →
      scanMenu menu b = some (menu.get ⟨i, hi⟩).actionCallback := by
  intro menu
  induction menu with
  | nil => intro i hi; exact absurd hi (Nat.not_lt_zero i)
  | cons e tl ih =>
    intro i hi hm hf
    cases i with
    | zero =>
      have he : e.isChosen b = true := hm
      simp [scanMenu, he]
    | succ j =>
      have h0 : e.isChosen b = false := hf 0 (Nat.succ_pos j)
      have htl := ih j (Nat.lt_of_succ_lt_succ hi) hm
        (fun k hk => hf (k + 1) (Nat.succ_lt_succ hk))
      simp [scanMenu, h0, htl]

/-- The scan loop finds nothing when no entry matches. -/
theorem scanMenu_eq_none (b : Nat) :
    ∀ (menu : List SerialMenuEntry), (∀ e ∈ menu, e.isChosen b = false) →
      scanMenu menu b = none := by
  intro menu
  induction menu with
  | nil => intro _; rfl
  | cons e tl ih =>
    intro h
    have h0 := h e (List.mem_cons_self e tl)
    simp [scanMenu, h0]
    exact ih (fun x hx => h x (List.mem_cons_of_mem e hx))


/-- The chunk loop, run with enough fuel on a label remainder whose length
fits the `uint8_t` tracking, emits exactly the characters after the first
chunk. -/
theorem chunkWhileFuel_concat :
    ∀ (fuel : Nat) (s : List Nat), s.length ≤ fuel → s.length ≤ 255 →
      s.take 7 ++ chunkWhileFuel fuel s = s := by
  intro fuel
  induction fuel with
  | zero =>
    intro s hf _
    have hs : s = [] := List.eq_nil_of_length_eq_zero (Nat.le_zero.1 hf)
    subst hs
    simp [chunkWhileFuel]
  | succ n ih =>
    intro s hf h255
    have hmod : s.length % 256 = s.length := Nat.mod_eq_of_lt (by omega)
    by_cases h8 : 8 ≤ s.length % 256
    · have h8' : 8 ≤ s.length := by omega
      have hlen : (s.drop 7).length = s.length - 7 := List.length_drop 7 s
      simp only [chunkWhileFuel, if_pos h8]
      rw [ih (s.drop 7) (by omega) (by omega)]
      exact List.take_append_drop 7 s
    · simp only [chunkWhileFuel, if_neg h8, List.append_nil]
      exact List.take_of_length_le (by omega)

/-- `chunkWhile` form of `chunkWhileFuel_concat`. -/
theorem chunk_concat (s : List Nat) (h : s.length ≤ 255) :
    s.take 7 ++ chunkWhile s = s :=
  chunkWhileFuel_concat s.length s le_rfl h

/-! ### Claim theorems -/

/-- C1 (counterexample): the claim "for every selector/input pair differing
in more than case, `matches` returns false" fails on the code.  Selector
`'['` (91) and input `'{'` (123) are distinct and are not the same letter
in any case pairing, yet `isChosen` returns true, because forcing bit 0x20
also conflates these non-letter characters. -/
theorem c1_counterexample :
    (mkEntry [] false 91 0).isChosen 123 = true ∧
    (91 : Nat) ≠ 123 ∧ ¬ sameLetterPair 91 123 := by decide

/-- C1 (amended): for any case pairing of the same letter, `isChosen`
returns true; and in general `isChosen` returns true exactly when selector
and input agree after bit 0x20 is forced to 1 (so pairs whose 0x20-forced
forms differ — in particular letter pairs differing in more than case —
give false, but non-letter pairs related by bit 0x20 also match). -/
theorem c1_amended (m : List Nat) (pm : Bool) (s a i : Nat)
    (hs : s < 256) (hi : i < 256) :
    ((mkEntry m pm s a).isChosen i = true ↔ s ||| 32 = i ||| 32) ∧
    (sameLetterPair s i → (mkEntry m pm s a).isChosen i = true) := by
  have hk : mkKey pm s ||| 32 = s ||| 32 := mkKey_lor32 pm s hs
  have hiff : (mkEntry m pm s a).isChosen i = true ↔ s ||| 32 = i ||| 32 := by
    simp only [SerialMenuEntry.isChosen, mkEntry, hk, beq_iff_eq]
    exact eq_comm
  exact ⟨hiff, fun hp => hiff.2 hp.2.2⟩

/-- C1 (witness): selector 'A' (65), input 'a' (97) — a case pairing of the
letter a — matches. -/
theorem c1_amended_witness : (mkEntry [] false 65 0).isChosen 97 = true :=
  (c1_amended [] false 65 0 97 (by decide) (by decide)).2 (by decide)

/-- C6: `getNumber` fed exactly "-12.5\n" (bytes 45,49,50,46,53,10), no
prompt, returns -12.5 (= -25/2) at an exact fractional type, and -12 at a
C integer type (accumulated value -125, divisor 10, truncating division). -/
theorem c6_getNumber_neg12_5 :
    getNumberRat [45, 49, 50, 46, 53, 10] = some (-25/2, []) ∧
    getNumberInt [45, 49, 50, 46, 53, 10] = some (-12, []) := by
  constructor
  · norm_num [getNumberRat, getNumberWith, numLoop]
  · decide

/-- C7: for every loaded menu (whatever its selectors), `run` on available
input byte 0x0A consumes the byte, invokes no action and returns false
("no activity"): the 0x0A test precedes the entry scan. -/
theorem c7_linefeed_noop (d w : Nat) (menu : List SerialMenuEntry)
    (rest : List Nat) (hd : 0 < d) :
    (run d w menu (10 :: rest)).actions = [] ∧
    (run d w menu (10 :: rest)).ret = false ∧
    (run d w menu (10 :: rest)).rest = rest := by
  simp [run]

/-- C7 (witness): a menu whose entry's packed selector is literally 0x0A
(raw selector '*' = 42, packed to 10 by the constructor) — the entry would
match byte 0x0A — still yields no action and "no activity". -/
theorem c7_witness :
    (mkEntry [] false 42 5).isChosen 10 = true ∧
    (run 100 0 [mkEntry [] false 42 5] [10, 97]).actions = [] ∧
    (run 100 0 [mkEntry [] false 42 5] [10, 97]).ret = false ∧
    (run 100 0 [mkEntry [] false 42 5] [10, 97]).rest = [97] :=
  ⟨by decide, c7_linefeed_noop 100 0 [mkEntry [] false 42 5] [97] (by decide)⟩

/-- C10: with `1 ≤ loopDelayMs ≤ 1000` every divisor in `run`'s heartbeat
branch (`loopDelayMs` itself, `loopsPerBlink`, `loopsPerTick`) is nonzero;
and the bound 1000 is necessary: beyond it `callsPerSecond` is 0, so both
`waiting % loopsPerBlink` and `waiting % loopsPerTick` would be a C modulo
by zero (with `loopDelayMs = 0`, `1000 / loopDelayMs` itself is the C
division by zero). -/
theorem c10_heartbeat_divisors :
    (∀ d, 1 ≤ d → d ≤ 1000 →
      0 < callsPerSecond d ∧ 0 < loopsPerBlink d ∧ 0 < loopsPerTick d) ∧
    (∀ d, 1000 < d →
      callsPerSecond d = 0 ∧ loopsPerBlink d = 0 ∧ loopsPerTick d = 0) := by
  constructor
  · intro d h1 h2
    have hc : 0 < callsPerSecond d := Nat.div_pos h2 h1
    have hle : callsPerSecond d ≤ 1000 := Nat.div_le_self 1000 d
    refine ⟨hc, hc, ?_⟩
    have h10 : 10 * callsPerSecond d < 65536 := by omega
    unfold loopsPerTick
    rw [Nat.mod_eq_of_lt h10]
    omega
  · intro d hd
    have hc : callsPerSecond d = 0 := Nat.div_eq_of_lt hd
    refine ⟨hc, hc, ?_⟩
    unfold loopsPerTick callsPerSecond at hc ⊢
    rw [hc]

/-- C10 (witness): at 100 ms per call the divisors are positive; at
2000 ms they are all zero. -/
theorem c10_witness :
    (0 < callsPerSecond 100 ∧ 0 < loopsPerBlink 100 ∧ 0 < loopsPerTick 100) ∧
    (callsPerSecond 2000 = 0 ∧ loopsPerBlink 2000 = 0 ∧ loopsPerTick 2000 = 0) :=
  ⟨c10_heartbeat_divisors.1 100 (by decide) (by decide),
   c10_heartbeat_divisors.2 2000 (by decide)⟩

/-- C2 (counterexample): the claim fails for input byte 0x0A.  A menu entry
with raw selector '*' (42) is packed to key 0x0A; input byte 0x0A is equal
to that selector once case-folded (`isChosen` accepts it), yet `run`
consumes the byte, invokes no action and returns false, because the 0x0A
test precedes the entry scan. -/
theorem c2_counterexample :
    (mkEntry [] false 42 7).isChosen 10 = true ∧
    (run 100 0 [mkEntry [] false 42 7] [10]).actions = [] ∧
    (run 100 0 [mkEntry [] false 42 7] [10]).ret = false := by decide

/-- C2 (amended): for every available input byte other than 0x0A that
matches some active entry, `run` consumes the byte, invokes exactly the
first matching entry's action exactly once (actions list is that
singleton; scanning stops at the first match) and returns true
("activity occurred"). -/
theorem c2_amended (d w : Nat) (menu : List SerialMenuEntry) (b : Nat)
    (rest : List Nat) (i : Nat) (hi : i < menu.length) (hd : 0 < d)
    (hb : b ≠ 10)
    (hmatch : (menu.get ⟨i, hi⟩).isChosen b = true)
    (hfirst : ∀ j (hj : j < i),
      (menu.get ⟨j, Nat.lt_trans hj hi⟩).isChosen b = false) :
    (run d w menu (b :: rest)).actions = [(menu.get ⟨i, hi⟩).actionCallback] ∧
    (run d w menu (b :: rest)).ret = true ∧
    (run d w menu (b :: rest)).rest = rest := by
  have hscan := scanMenu_eq_first b menu i hi hmatch hfirst
  simp [run, hb, hscan]

/-- C2 (witness): entries 'a' (callback 1) and 'A' (callback 2) share a
folded selector; input 'A' (65) invokes only the first one. -/
theorem c2_amended_witness :
    (run 100 0 [mkEntry [] false 97 1, mkEntry [] false 65 2] [65]).actions
        = [1] ∧
    (run 100 0 [mkEntry [] false 97 1, mkEntry [] false 65 2] [65]).ret
        = true ∧
    (run 100 0 [mkEntry [] false 97 1, mkEntry [] false 65 2] [65]).rest
        = [] :=
  c2_amended 100 0 [mkEntry [] false 97 1, mkEntry [] false 65 2] 65 [] 0
    (by decide) (by decide) (by decide) (by decide)
    (fun j hj => absurd hj (Nat.not_lt_zero j))

/-- C3: an available byte that is not 0x0A and matches no active entry
invokes no action, returns true ("activity occurred"), and writes the raw
byte followed by ": Invalid menu choice." and a newline (preceded by a
lone newline only when the heartbeat branch terminates a tick line). -/
theorem c3_invalid_choice (d w : Nat) (menu : List SerialMenuEntry) (b : Nat)
    (rest : List Nat) (hd : 0 < d) (hb : b ≠ 10)
    (hnone : ∀ e ∈ menu, e.isChosen b = false) :
    (run d w menu (b :: rest)).actions = [] ∧
    (run d w menu (b :: rest)).ret = true ∧
    (run d w menu (b :: rest)).rest = rest ∧
    ((run d w menu (b :: rest)).output = b :: (invalidMsg ++ [10]) ∨
     (run d w menu (b :: rest)).output = 10 :: b :: (invalidMsg ++ [10])) := by
  have hscan := scanMenu_eq_none b menu hnone
  by_cases hw : loopsPerTick d ≤ w
  · simp [run, hb, hscan, hw]
  · simp [run, hb, hscan, hw]

/-- C3 (witness): menu with single entry 'a', unmatched input 'x' (120). -/
theorem c3_witness :
    (run 100 0 [mkEntry [] false 97 1] [120]).actions = [] ∧
    (run 100 0 [mkEntry [] false 97 1] [120]).ret = true ∧
    (run 100 0 [mkEntry [] false 97 1] [120]).rest = [] ∧
    ((run 100 0 [mkEntry [] false 97 1] [120]).output
        = 120 :: (invalidMsg ++ [10]) ∨
     (run 100 0 [mkEntry [] false 97 1] [120]).output
        = 10 :: 120 :: (invalidMsg ++ [10])) :=
  c3_invalid_choice 100 0 [mkEntry [] false 97 1] 120 []
    (by decide) (by decide) (by decide)

/-- C4 (counterexample): the claim "`waiting` is reset to zero whenever
input arrives" fails.  With `loopDelayMs = 100` (`loopsPerTick = 100`) and
`waiting = 5`, a call with input available leaves `waiting = 5`: the code
resets it only when `waiting >= loopsPerTick`. -/
theorem c4_counterexample :
    (run 100 5 [] [97]).waiting = 5 ∧ (5 : Nat) ≠ 0 := by decide

/-- C4 (amended): a `run` call with input available resets `waiting` to
zero iff the counter had reached `loopsPerTick` (i.e. idle markers had
been printed); below that threshold it is left unchanged. -/
theorem c4_amended (d w : Nat) (menu : List SerialMenuEntry) (c : Nat)
    (rest : List Nat) (hd : 0 < d) :
    (loopsPerTick d ≤ w → (run d w menu (c :: rest)).waiting = 0) ∧
    (w < loopsPerTick d → (run d w menu (c :: rest)).waiting = w) := by
  constructor <;> intro hw
  · by_cases hc : c = 10
    · simp [run, hw, hc]
    · cases hsc : scanMenu menu c <;> simp [run, hw, hc, hsc]
  · have hnw : ¬ loopsPerTick d ≤ w := Nat.not_le.mpr hw
    by_cases hc : c = 10
    · simp [run, hnw, hc]
    · cases hsc : scanMenu menu c <;> simp [run, hnw, hc, hsc]

/-- C4 (witness): at the threshold the counter is cleared; below it it is
kept. -/
theorem c4_amended_witness :
    (run 100 100 [] [98]).waiting = 0 ∧ (run 100 7 [] [98]).waiting = 7 :=
  ⟨(c4_amended 100 100 [] 98 [] (by decide)).1 (by decide),
   (c4_amended 100 7 [] 98 [] (by decide)).2 (by decide)⟩

/-- C5 (counterexample): the claim "the loop terminates on the first
character that is neither a digit nor the first '.', so a second '.' ends
accumulation rather than changing the divisor" fails.  On "1.2.3\n" the
accumulation loop consumes everything up to and including the newline
(value 123, divisor 1000, no input left): the second '.' continued the
loop and multiplied the divisor by 10.  Per the claim, accumulation would
have ended at the second '.' with divisor 10 and "3\n" (= [51, 10])
unprocessed. -/
theorem c5_counterexample :
    numLoop Int [49, 46, 50, 46, 51, 10] 0 0 = some (123, 1000, []) ∧
    (1000 : Int) ≠ 10 ∧ ([] : List Nat) ≠ [51, 10] := by decide

/-- C5 (amended): only the first '.' starts fractional tracking (at a point
with divisor still 0 it becomes 1); once the divisor is nonzero it is
multiplied by 10 exactly once for every further consumed loop character —
digits and additional '.'s alike; and the loop terminates on the first
character that is neither a digit nor '.' (any '.', not only the first,
keeps the loop running). -/
theorem c5_amended (T : Type) [CommRing T] [DecidableEq T]
    [NoZeroDivisors T] [CharZero T] :
    (∀ c rest (v d : T), ¬((48 ≤ c ∧ c ≤ 57) ∨ c = 46) →
      numLoop T (c :: rest) v d = some (v, d, rest)) ∧
    (∀ rest (v : T), numLoop T (46 :: rest) v 0 = numLoop T rest v 1) ∧
    (∀ cs, (∀ x ∈ cs, (48 ≤ x ∧ x ≤ 57) ∨ x = 46) →
      ∀ t, ¬((48 ≤ t ∧ t ≤ 57) ∨ t = 46) → ∀ rest (v d : T), d ≠ 0 →
        ∃ vf, numLoop T (cs ++ t :: rest) v d
          = some (vf, d * 10 ^ cs.length, rest)) := by
  have h10 : (10 : T) ≠ 0 := by norm_num
  refine ⟨?_, ?_, ?_⟩
  · intro c rest v d hc
    simp [numLoop, hc]
  · intro rest v
    norm_num [numLoop]
  · intro cs
    induction cs with
    | nil =>
      intro _ t ht rest v d hd
      exact ⟨v, by simp [numLoop, ht]⟩
    | cons c cs ih =>
      intro hall t ht rest v d hd
      have hc := hall c (List.mem_cons_self c cs)
      have hrest : ∀ x ∈ cs, (48 ≤ x ∧ x ≤ 57) ∨ x = 46 :=
        fun x hx => hall x (List.mem_cons_of_mem c hx)
      have hd10 : d * 10 ≠ 0 := mul_ne_zero hd h10
      have hpow : d * 10 * 10 ^ cs.length = d * 10 ^ (c :: cs).length := by
        simp [List.length_cons, pow_succ]
        ring
      by_cases hdig : 48 ≤ c ∧ c ≤ 57
      · obtain ⟨vf, hvf⟩ :=
          ih hrest t ht rest (v * 10 + ((c - 48 : Nat) : T)) (d * 10) hd10
        refine ⟨vf, ?_⟩
        have hstep : numLoop T ((c :: cs) ++ t :: rest) v d
            = numLoop T (cs ++ t :: rest)
                (v * 10 + ((c - 48 : Nat) : T)) (d * 10) := by
          simp [numLoop, hc, hdig]
        rw [hstep, hvf, hpow]
      · have hdot : c = 46 := hc.resolve_left hdig
        subst hdot
        obtain ⟨vf, hvf⟩ := ih hrest t ht rest v (d * 10) hd10
        refine ⟨vf, ?_⟩
        have hstep : numLoop T ((46 :: cs) ++ t :: rest) v d
            = numLoop T (cs ++ t :: rest) v (d * 10) := by
          norm_num [numLoop, hd10]
        rw [hstep, hvf, hpow]

/-- C5 (witness): after a point (divisor 1), consuming '2' then a second
'.' multiplies the divisor twice: on "2.\n"-style remainder the loop ends
with divisor 1 * 10 ^ 2 = 100 (and indeed value 12 from v = 1). -/
theorem c5_amended_witness :
    (∃ vf, numLoop Int [50, 46, 10] 1 1 = some (vf, 1 * 10 ^ 2, [])) ∧
    numLoop Int [50, 46, 10] 1 1 = some (12, 100, []) :=
  ⟨(c5_amended Int).2.2 [50, 46] (by decide) 10 (by decide) [] 1 1
      (by decide),
   by decide⟩

set_option maxRecDepth 8000 in
/-- C8 (counterexample): the claim fails for a bulk-storage label of length
256 (longer than the chunk size 8).  `strlcpy_P`'s return value is stored
in a `uint8_t`, so the remaining length 256 reads as 0, the chunk loop
never runs, and only the first 7 characters of the label are emitted. -/
theorem c8_counterexample :
    (List.replicate 256 65 : List Nat).length = 256 ∧
    showMenu [mkEntry (List.replicate 256 65) true 120 0]
      = menuHeader ++ (List.replicate 7 65 ++ [10]) ∧
    (List.replicate 7 65 ++ [10] : List Nat)
      ≠ List.replicate 256 65 ++ [10] := by decide

/-- C8 (amended): for every bulk-storage label of length at most 255 (so
that the `uint8_t` length tracking in `show` does not wrap), the chunked
copy path emits the full label text unbroken: the printed chunks
concatenate to exactly the original label, followed by the newline. -/
theorem c8_amended (lbl : List Nat) (k a : Nat) (hlen : lbl.length ≤ 255) :
    showMenu [mkEntry lbl true k a] = menuHeader ++ (lbl ++ [10]) := by
  have hpm : (mkEntry lbl true k a).isProgMem = true := by
    simp [SerialMenuEntry.isProgMem, mkEntry, mkKey, lor32_land32]
  have hse : showEntry (mkEntry lbl true k a) = lbl ++ [10] := by
    unfold showEntry
    rw [if_pos hpm]
    show (lbl.take 7 ++ chunkWhile lbl) ++ [10] = lbl ++ [10]
    rw [chunk_concat lbl hlen]
  simp [showMenu, hse]

/-- C8 (witness): a 20-character bulk-storage label (longer than the chunk
size 8) is reproduced unbroken. -/
theorem c8_amended_witness :
    showMenu [mkEntry (List.replicate 20 66) true 120 0]
      = menuHeader ++ (List.replicate 20 66 ++ [10]) :=
  c8_amended (List.replicate 20 66) 120 0 (by decide)

set_option maxRecDepth 4000 in
/-- C9: with `loopDelayMs = 100` (so `loopsPerTick = 100`,
`loopsPerBlink = 10`) and `waiting = 0`, 100 consecutive no-input `run`
calls emit exactly one idle-marker '.' (byte 46, at the 100th call) and
perform exactly one `digitalWrite` (LOW, since (100/10) & 1 = 0), ending
with `waiting = 100`; a 101st call with input available ('a', matching the
loaded entry) emits exactly the terminating newline, resets `waiting` to
0, and reports activity. -/
theorem c9_idle_heartbeat :
    runIdleN 100 100 0 = (100, [46], [false]) ∧
    (run 100 100 [mkEntry [] false 97 1] [97]).output = [10] ∧
    (run 100 100 [mkEntry [] false 97 1] [97]).waiting = 0 ∧
    (run 100 100 [mkEntry [] false 97 1] [97]).ret = true := by decide
